import Mathlib

/-!
Verification development for the Oxide Rancher machine driver
(`oxidecomputer/rancher-machine-driver-oxide`).

The Go sources are shallowly embedded below.  Strings manipulated by the
parsers are represented as `List Char` (the repository only ever deals
with ASCII input here; Go slices strings by byte, which coincides with
rune indexing on ASCII).  Machine integers are represented as `Nat`/`Int`
with explicit two's-complement wrapping where the Go code converts
between `uint64` and `int`.  The numeric literal inside a size string is
parsed by Go with `strconv.ParseFloat`; since `ParseBytes` only ever
hands it a string of decimal digits with at most one dot, we model that
value exactly as the integer pair mantissa/10^k.  Float64 rounding only
differs from the exact value on integers above 2^53, far beyond every
size the driver accepts, and is noted where relevant.

Fallible Go functions returning `(T, error)` are embedded as `Except`.
Remote API calls are embedded as oracles: structures of response
functions, with the calls actually issued collected into a trace list.
-/

set_option maxRecDepth 8000

deriving instance DecidableEq for Except

namespace OxideDriver

/-! ## Character and string helpers (ASCII models of the Go stdlib calls) -/

/-- Characters accepted by the numeric-prefix scan in
`humanize.ParseBytes`: digits, dot and comma (`unicode.IsDigit(r) || r == '.' || r == ','`). -/
def isSizeRune (c : Char) : Bool :=
  c.isDigit || c = '.' || c = ','

/-- ASCII whitespace, modelling `unicode.IsSpace` for the inputs at hand. -/
def isSpaceChar (c : Char) : Bool :=
  c = ' ' || c = '\t' || c = '\n' || c = '\r'

/-- Model of `strings.ToLower` on ASCII. -/
def toLowerList (l : List Char) : List Char :=
  l.map Char.toLower

/-- Model of `strings.TrimSpace`. -/
def trimSpaceList (l : List Char) : List Char :=
  ((l.dropWhile isSpaceChar).reverse.dropWhile isSpaceChar).reverse

/-- Model of Go `strings.Split(s, sep)` for a one-character separator.
`strings.Split("", sep)` returns `[""]`, matching the base case. -/
def splitSep (sep : Char) : List Char → List (List Char)
  | [] => [[]]
  | c :: rest =>
    if c = sep then
      [] :: splitSep sep rest
    else
      match splitSep sep rest with
      | [] => [[c]]
      | h :: t => (c :: h) :: t

/-- Numeric value of a list of decimal digits. -/
def digitsVal (l : List Char) : Nat :=
  l.foldl (fun a c => a * 10 + (c.toNat - 48)) 0

/-- Parses a nonempty all-digit list, else `none`. -/
def digitsOpt (l : List Char) : Option Nat :=
  if l ≠ [] ∧ l.all Char.isDigit then some (digitsVal l) else none

/-- Model of `strconv.ParseFloat` restricted to the strings
`humanize.ParseBytes` can pass it: decimal digits with at most one dot
(signs, exponents, hex and inf/nan cannot occur because the prefix scan
only keeps digits, dots and commas, and commas are removed).  The parsed
value is the exact rational `mantissa / 10 ^ fracLen`, returned here as
the pair `(mantissa, fracLen)` so that all later arithmetic is exact
integer arithmetic.  Go rounds the value to the nearest float64, which
agrees with the exact value on every integer below 2^53 — in particular
on every size the driver accepts. -/
def parseFloatNum (num : List Char) : Option (Nat × Nat) :=
  match splitSep '.' num with
  | [ipart] =>
    match digitsOpt ipart with
    | some n => some (n, 0)
    | none => none
  | [ipart, fpart] =>
    if (ipart ++ fpart) ≠ [] ∧ (ipart ++ fpart).all Char.isDigit then
      some (digitsVal (ipart ++ fpart), fpart.length)
    else
      none
  | _ => none

/-! ## go-humanize size constants and `ParseBytes` -/

def KByte : Nat := 1000
def KiByte : Nat := 1024
def MByte : Nat := KByte * 1000
def MiByte : Nat := KiByte * 1024
def GByte : Nat := MByte * 1000
def GiByte : Nat := MiByte * 1024
def TByte : Nat := GByte * 1000
def TiByte : Nat := GiByte * 1024
def PByte : Nat := TByte * 1000
def PiByte : Nat := TiByte * 1024
def EByte : Nat := PByte * 1000
def EiByte : Nat := PiByte * 1024

/-- The `bytesSizeTable` lookup of go-humanize: maps a lower-cased,
trimmed unit suffix to its byte multiplier. -/
def bytesSizeTable (ext : List Char) : Option Nat :=
  if ext = [] then some 1
  else if ext = "b".toList then some 1
  else if ext = "kib".toList then some KiByte
  else if ext = "kb".toList then some KByte
  else if ext = "mib".toList then some MiByte
  else if ext = "mb".toList then some MByte
  else if ext = "gib".toList then some GiByte
  else if ext = "gb".toList then some GByte
  else if ext = "tib".toList then some TiByte
  else if ext = "tb".toList then some TByte
  else if ext = "pib".toList then some PiByte
  else if ext = "pb".toList then some PByte
  else if ext = "eib".toList then some EiByte
  else if ext = "eb".toList then some EByte
  else if ext = "ki".toList then some KiByte
  else if ext = "k".toList then some KByte
  else if ext = "mi".toList then some MiByte
  else if ext = "m".toList then some MByte
  else if ext = "gi".toList then some GiByte
  else if ext = "g".toList then some GByte
  else if ext = "ti".toList then some TiByte
  else if ext = "t".toList then some TByte
  else if ext = "pi".toList then some PiByte
  else if ext = "p".toList then some PByte
  else if ext = "ei".toList then some EiByte
  else if ext = "e".toList then some EByte
  else none

/-- `math.MaxFloat64`, exactly (an integer). -/
def maxFloat64N : Nat := (2 ^ 53 - 1) * 2 ^ 971

/-- Errors of the embedded `humanize.ParseBytes`.  `badNumber` is the
`strconv.ParseFloat` "invalid syntax" failure, `unhandledSize` the
"unhandled size name" failure, `tooLargeFloat` the "too large" guard
against float overflow. -/
inductive ParseBytesErr where
  | badNumber
  | unhandledSize
  | tooLargeFloat
deriving DecidableEq, Repr

/-- Embedding of `humanize.ParseBytes`.  The Go function scans the
longest prefix of digits/dots/commas, strips commas, parses the rest as
a float, lower-cases and trims the remaining suffix, looks up the
multiplier, guards against float overflow and truncates to `uint64`.
The result here is the exact floor of the product (a `Nat`; Go's
conversion of an out-of-range float to `uint64` is implementation
defined and never reached by the driver's accepted sizes). -/
def ParseBytes (s : List Char) : Except ParseBytesErr Nat :=
  let numRaw := s.takeWhile isSizeRune
  let num := if numRaw.contains ',' then numRaw.filter (fun c => c ≠ ',') else numRaw
  match parseFloatNum num with
  | none => .error .badNumber
  | some f =>
    let extra := toLowerList (trimSpaceList (s.drop numRaw.length))
    match bytesSizeTable extra with
    | some m =>
      if maxFloat64N * 10 ^ f.2 ≤ f.1 * m then .error .tooLargeFloat
      else .ok (f.1 * m / 10 ^ f.2)
    | none => .error .unhandledSize

/-! ## `HumanizeSize` (src/size_helpers.go) -/

/-- Two's-complement conversion of a Go `uint64` value to a 64-bit `int`,
as performed by `int(sizeUInt64)` on the amd64/arm64 targets this driver
is built for. -/
def int64OfUInt64 (u : Nat) : Int :=
  if u % 2 ^ 64 < 2 ^ 63 then ((u % 2 ^ 64 : Nat) : Int)
  else ((u % 2 ^ 64 : Nat) : Int) - 2 ^ 64

/-- Errors of `HumanizeSize`: a propagated `ParseBytes` failure or the
"invalid size definition, size too large" guard. -/
inductive HumanizeSizeErr where
  | parseErr (e : ParseBytesErr)
  | sizeTooLarge
deriving DecidableEq, Repr

/-- Embedding of `HumanizeSize` (src/size_helpers.go): parse with
`humanize.ParseBytes`, convert the `uint64` to `int`, reject results
greater than `humanize.PiByte`.  The comparison happens on the signed
value, so a `uint64` that wraps negative slips past the guard exactly as
in the Go code. -/
def HumanizeSize (sizeStr : List Char) : Except HumanizeSizeErr Int :=
  match ParseBytes sizeStr with
  | .error e => .error (.parseErr e)
  | .ok u =>
    let size : Int := int64OfUInt64 u
    if (PiByte : Int) < size then .error .sizeTooLarge
    else .ok size

/-! ## `AdditionalDisk` and `ParseAdditionalDisk` (current driver source) -/

/-- `AdditionalDisk` of the current driver source: size in bytes
(`uint64`) and a label used inside the disk name. -/
structure AdditionalDisk where
  Size : Nat
  Label : List Char
deriving DecidableEq, Repr

/-- Errors of `ParseAdditionalDisk`: the "invalid format %q, expected
size[,label]" failure for a wrong number of comma-separated fields, or a
wrapped size-parse failure ("failed parsing size %q: ..."). -/
inductive DiskParseErr where
  | invalidFormat (s : List Char)
  | sizeErr (e : ParseBytesErr)
deriving DecidableEq, Repr

/-- Embedding of `ParseAdditionalDisk` (current driver source): split on
commas; two fields give size and label, with an empty label falling back
to the default "additional"; one field is just the size; any other arity
is an invalid format.  The size goes straight to `humanize.ParseBytes`
(note: no upper bound is applied here).  On error Go returns the zero
`AdditionalDisk{}` alongside the error; the `Except` embedding carries
only the error, and the caller-side zero value is reconstructed where
the Go caller uses it. -/
def ParseAdditionalDisk (s : List Char) : Except DiskParseErr AdditionalDisk :=
  match splitSep ',' s with
  | [f0, f1] =>
    let label := if f1 ≠ [] then f1 else "additional".toList
    match ParseBytes f0 with
    | .error e => .error (.sizeErr e)
    | .ok size => .ok { Size := size, Label := label }
  | [f0] =>
    match ParseBytes f0 with
    | .error e => .error (.sizeErr e)
    | .ok size => .ok { Size := size, Label := "additional".toList }
  | _ => .error (.invalidFormat s)

/-! ## `ExternalIP` and `ParseExternalIP`

The `ParseExternalIP` implementation is not present in the repository
snapshot (only its tests in `oxide_test.go` are), so it is modelled from
the specification. -/

/-- `ExternalIP` record as exercised by the tests: the kind ("ephemeral"
or "floating") and a pool/address name or id. -/
structure ExternalIP where
  kind : List Char
  nameOrId : List Char
deriving DecidableEq, Repr

/-- Errors of the spec-modelled `ParseExternalIP`, identifying which
part of the input was invalid. -/
inductive ExternalIPErr where
  | wrongArity (s : List Char)
  | unknownKind (k : List Char)
  | emptyNameOrId
deriving DecidableEq, Repr

/-- Modelled from the spec: the `ParseExternalIP` implementation is
missing from the source snapshot (only its tests are present).  Per
§4.2 of the specification: split into exactly two comma-separated
parts, kind and nameOrId; the kind must be literally "ephemeral" or
"floating"; the nameOrId must be non-empty; any deviation (wrong arity,
unknown kind, empty nameOrId) is an error identifying which part was
invalid. -/
def ParseExternalIP (s : List Char) : Except ExternalIPErr ExternalIP :=
  match splitSep ',' s with
  | [k, n] =>
    if k = "ephemeral".toList ∨ k = "floating".toList then
      if n ≠ [] then .ok { kind := k, nameOrId := n }
      else .error .emptyNameOrId
    else .error (.unknownKind k)
  | _ => .error (.wrongArity s)

/-! ## The Rancher machine state enumeration and `toRancherMachineState` -/

/-- The Rancher `libmachine/state.State` enumeration.  `None` is the
designated unknown value. -/
inductive State where
  | None
  | Running
  | Paused
  | Saved
  | Stopped
  | Stopping
  | Starting
  | Error
  | Timeout
  | NotFound
deriving DecidableEq, Repr

/-- The `oxide.InstanceState` constants: the remote instance-state
enumeration is an extensible string type in the SDK. -/
def InstanceStateCreating : String := "creating"

def InstanceStateStarting : String := "starting"

def InstanceStateRunning : String := "running"

def InstanceStateStopping : String := "stopping"

def InstanceStateStopped : String := "stopped"

def InstanceStateRebooting : String := "rebooting"

def InstanceStateMigrating : String := "migrating"

def InstanceStateRepairing : String := "repairing"

def InstanceStateFailed : String := "failed"

def InstanceStateDestroyed : String := "destroyed"

/-- Embedding of `toRancherMachineState` (current driver source): the
switch over the remote instance state, with the default case mapping
every unrecognized value to `state.None`. -/
def toRancherMachineState (instanceState : String) : State :=
  if instanceState = InstanceStateCreating ∨ instanceState = InstanceStateStarting ∨
      instanceState = InstanceStateRebooting ∨ instanceState = InstanceStateRepairing then
    .Starting
  else if instanceState = InstanceStateRunning ∨ instanceState = InstanceStateMigrating then
    .Running
  else if instanceState = InstanceStateStopping then
    .Stopping
  else if instanceState = InstanceStateStopped then
    .Stopped
  else if instanceState = InstanceStateFailed then
    .Error
  else if instanceState = InstanceStateDestroyed then
    .NotFound
  else
    .None

/-! ## Flags, driver configuration and `SetConfigFromFlags`
(current driver source) -/

def defaultSSHUser : String := "oxide"

def defaultSSHPort : Nat := 22

def defaultMemory : String := "4 GiB"

def defaultBootDiskSize : String := "20 GiB"

def flagHost : String := "oxide-host"

def flagToken : String := "oxide-token"

def flagProject : String := "oxide-project"

def flagVCPUs : String := "oxide-vcpus"

def flagMemory : String := "oxide-memory"

def flagBootDiskSize : String := "oxide-boot-disk-size"

def flagBootDiskImageID : String := "oxide-boot-disk-image-id"

def flagAdditionalDisk : String := "oxide-additional-disk"

def flagVPC : String := "oxide-vpc"

def flagSubnet : String := "oxide-subnet"

def flagUserDataFile : String := "oxide-user-data-file"

def flagSSHUser : String := "oxide-ssh-user"

def flagSSHPublicKey : String := "oxide-ssh-public-key"

def flagAntiAffinityGroup : String := "oxide-anti-affinity-group"

def flagEphemeralIPAttach : String := "oxide-ephemeral-ip-attach"

def flagEphemeralIPPool : String := "oxide-ephemeral-ip-pool"

def flagUserAgent : String := "oxide-user-agent"

/-- The two error shapes `SetConfigFromFlags` joins: `RequiredFlagError`
("required option %q not set") and `FlagParseError` ("failed parsing
flag %q: ...").  The wrapped parse failure's payload is elided; an entry
is identified by its constructor and flag name.  A Go `error` built with
`errors.Join` is modelled as the list of joined errors, `[]` standing
for `nil`. -/
inductive FlagError where
  | required (flag : String)
  | parse (flag : String)
deriving DecidableEq, Repr

/-- The `drivers.DriverOptions` interface: typed lookup of flag values.
The fake flagger used by the driver tests returns the zero value for an
absent key, which a concrete instantiation models directly. -/
structure DriverOptions where
  str : String → String
  int : String → Int
  strSlice : String → List String
  bool : String → Bool

/-- The `Driver` struct of the current driver source (remote-client
handle omitted; it is modelled as an explicit oracle argument to the
lifecycle operations). -/
structure Driver where
  MachineName : String
  StorePath : String
  SSHUser : String
  SSHPort : Nat
  IPAddress : String
  Host : String
  Token : String
  Project : String
  VCPUS : Int
  Memory : Nat
  BootDiskSize : Nat
  BootDiskImageID : String
  VPC : String
  Subnet : String
  EphemeralIPAttach : Bool
  EphemeralIPPool : String
  UserDataFile : String
  SSHPublicKeys : List String
  AntiAffinityGroups : List String
  AdditionalDisks : List AdditionalDisk
  UserAgent : String
  InstanceID : String
  BootDiskID : String
  SSHPublicKeyID : String
  AdditionalDiskIDs : List String
deriving Repr

/-- A `Driver` with every field zero-valued, standing for Go's zero
`Driver` struct. -/
def emptyDriver : Driver where
  MachineName := ""
  StorePath := ""
  SSHUser := ""
  SSHPort := 0
  IPAddress := ""
  Host := ""
  Token := ""
  Project := ""
  VCPUS := 0
  Memory := 0
  BootDiskSize := 0
  BootDiskImageID := ""
  VPC := ""
  Subnet := ""
  EphemeralIPAttach := false
  EphemeralIPPool := ""
  UserDataFile := ""
  SSHPublicKeys := []
  AntiAffinityGroups := []
  AdditionalDisks := []
  UserAgent := ""
  InstanceID := ""
  BootDiskID := ""
  SSHPublicKeyID := ""
  AdditionalDiskIDs := []

/-- Embedding of `newDriver`: a fresh driver with machine name, store
path and the SSH defaults set. -/
def newDriver (machineName storePath : String) : Driver :=
  { emptyDriver with
      MachineName := machineName
      SSHUser := defaultSSHUser
      SSHPort := defaultSSHPort
      StorePath := storePath }

/-- The required-flag checks of `SetConfigFromFlags`: each empty
required field joins one `RequiredFlagError`, in source order (host,
token, project, boot-disk image id). -/
def requiredFlagErrors (host token project bootDiskImageID : String) : List FlagError :=
  (if host = "" then [FlagError.required flagHost] else []) ++
    (if token = "" then [FlagError.required flagToken] else []) ++
    (if project = "" then [FlagError.required flagProject] else []) ++
    (if bootDiskImageID = "" then [FlagError.required flagBootDiskImageID] else [])

/-- The additional-disk loop of `SetConfigFromFlags`: every flag string
is parsed; a failed parse joins a `FlagParseError` and still appends the
zero `AdditionalDisk{}` returned by `ParseAdditionalDisk`.  Returns the
accumulated disk list and the joined parse errors, both in input
order. -/
def parseDisksLoop : List String → List AdditionalDisk × List FlagError
  | [] => ([], [])
  | s :: rest =>
    let r := parseDisksLoop rest
    match ParseAdditionalDisk s.toList with
    | .ok a => (a :: r.1, r.2)
    | .error _ => ({ Size := 0, Label := [] } :: r.1, FlagError.parse flagAdditionalDisk :: r.2)

/-- The memory string actually parsed by `SetConfigFromFlags`: the flag
value, or the default when the flag value is empty. -/
def effMemoryStr (opts : DriverOptions) : String :=
  if opts.str flagMemory = "" then defaultMemory else opts.str flagMemory

/-- The boot-disk-size string actually parsed by `SetConfigFromFlags`:
the flag value, or the default when the flag value is empty. -/
def effBootDiskSizeStr (opts : DriverOptions) : String :=
  if opts.str flagBootDiskSize = "" then defaultBootDiskSize else opts.str flagBootDiskSize

/-- Embedding of `SetConfigFromFlags` (current driver source).  The flag
values are copied onto the driver; the four required flags are then all
checked and their errors joined, and if any is missing that aggregated
error is returned at once — the parse phase below it never runs.
Otherwise memory, boot-disk size and each additional-disk entry are all
parsed, every parse error is joined, and the joined parse error (or
nil, modelled as `[]`) is returned.  A failed `humanize.ParseBytes`
leaves the corresponding field at Go's zero value 0. -/
def SetConfigFromFlags (d : Driver) (opts : DriverOptions) : Driver × List FlagError :=
  let d1 := { d with
      Host := opts.str flagHost
      Token := opts.str flagToken
      Project := opts.str flagProject
      VCPUS := opts.int flagVCPUs
      BootDiskImageID := opts.str flagBootDiskImageID
      VPC := opts.str flagVPC
      Subnet := opts.str flagSubnet
      UserDataFile := opts.str flagUserDataFile
      SSHUser := opts.str flagSSHUser
      SSHPublicKeys := opts.strSlice flagSSHPublicKey
      AntiAffinityGroups := opts.strSlice flagAntiAffinityGroup
      SSHPort := defaultSSHPort
      EphemeralIPAttach := opts.bool flagEphemeralIPAttach
      EphemeralIPPool := opts.str flagEphemeralIPPool
      UserAgent := opts.str flagUserAgent }
  let reqErrs := requiredFlagErrors d1.Host d1.Token d1.Project d1.BootDiskImageID
  if reqErrs ≠ [] then
    (d1, reqErrs)
  else
    let memRes := ParseBytes (effMemoryStr opts).toList
    let memErrs : List FlagError :=
      match memRes with
      | .ok _ => []
      | .error _ => [FlagError.parse flagMemory]
    let memVal : Nat := match memRes with | .ok n => n | .error _ => 0
    let bdsRes := ParseBytes (effBootDiskSizeStr opts).toList
    let bdsErrs : List FlagError :=
      match bdsRes with
      | .ok _ => []
      | .error _ => [FlagError.parse flagBootDiskSize]
    let bdsVal : Nat := match bdsRes with | .ok n => n | .error _ => 0
    let disks := parseDisksLoop (opts.strSlice flagAdditionalDisk)
    let d2 := { d1 with
        Memory := memVal
        BootDiskSize := bdsVal
        AdditionalDisks := disks.1 }
    (d2, memErrs ++ bdsErrs ++ disks.2)

/-! ## Lifecycle operations (current driver source)

Remote API calls are modelled by an oracle of response functions; the
wall clock of the two-minute teardown deadline is modelled by a poll
budget (the wait loop has no sleep, so the deadline elapsing is
observed exactly as the budget running out before a poll).  The calls a
lifecycle operation actually issues are collected into a trace. -/

/-- Remote API errors, carried verbatim. -/
abbrev ApiError := String

/-- The remote calls traced by the lifecycle operations. -/
inductive ApiCall where
  | instanceStop (id : String)
  | sshKeyDelete (id : String)
  | instanceDelete (id : String)
  | diskDelete (id : String)
deriving DecidableEq, Repr

/-- Oracle for the remote client: `instanceView k id` is the response
to the k-th `InstanceView` poll (the reported instance run state);
the others are the responses to the respective deletion/stop calls. -/
structure ClientOracle where
  instanceStop : String → Except ApiError Unit
  instanceView : Nat → String → Except ApiError String
  sshKeyDelete : String → Except ApiError Unit
  instanceDelete : String → Except ApiError Unit
  diskDelete : String → Except ApiError Unit

/-- Embedding of `Stop`: one `InstanceStop` call against the recorded
instance id, its error propagated. -/
def Stop (d : Driver) (o : ClientOracle) : List ApiCall × Except ApiError Unit :=
  ([ApiCall.instanceStop d.InstanceID], o.instanceStop d.InstanceID)

/-- Embedding of `Kill`: the source is literally `return d.Stop()`. -/
def Kill (d : Driver) (o : ClientOracle) : List ApiCall × Except ApiError Unit :=
  Stop d o

/-- Embedding of `GetState` at the k-th poll: fetch the instance,
propagate a fetch error, otherwise map the reported run state through
`toRancherMachineState`. -/
def GetState (d : Driver) (o : ClientOracle) (k : Nat) : Except ApiError State :=
  match o.instanceView k d.InstanceID with
  | .error e => .error e
  | .ok runState => .ok (toRancherMachineState runState)

/-- Errors of `Remove`: a propagated remote error (from `Stop`, a
`GetState` poll, or a deletion), or the distinct "timed out waiting for
instance to stop" deadline error. -/
inductive RemoveError where
  | apiErr (e : ApiError)
  | timeout
deriving DecidableEq, Repr

/-- Embedding of `Remove`'s wait loop: each iteration first checks the
deadline (fuel exhausted means the deadline elapsed), then calls
`GetState`; a fetch error aborts with that error, `Stopped` exits the
loop, anything else loops. -/
def waitForStop (d : Driver) (o : ClientOracle) : Nat → Nat → Except RemoveError Unit
  | 0, _ => .error .timeout
  | fuel + 1, k =>
    match GetState d o k with
    | .error e => .error (.apiErr e)
    | .ok s => if s = State.Stopped then .ok () else waitForStop d o fuel (k + 1)

/-- The additional-disk deletion loop of `Remove`: delete each recorded
disk id in order, aborting on the first failure. -/
def deleteDisks (o : ClientOracle) : List String → List ApiCall × Except RemoveError Unit
  | [] => ([], .ok ())
  | id :: rest =>
    match o.diskDelete id with
    | .error e => ([ApiCall.diskDelete id], .error (.apiErr e))
    | .ok _ =>
      let r := deleteDisks o rest
      (ApiCall.diskDelete id :: r.1, r.2)

/-- The deletion phase of `Remove`, as written in the source: the
generated SSH key, then the instance, then the boot disk, then each
additional disk in recorded order, each failure returned as-is and
aborting the rest. -/
def RemoveDeletions (d : Driver) (o : ClientOracle) : List ApiCall × Except RemoveError Unit :=
  match o.sshKeyDelete d.SSHPublicKeyID with
  | .error e => ([ApiCall.sshKeyDelete d.SSHPublicKeyID], .error (.apiErr e))
  | .ok _ =>
    match o.instanceDelete d.InstanceID with
    | .error e =>
      ([ApiCall.sshKeyDelete d.SSHPublicKeyID, ApiCall.instanceDelete d.InstanceID],
        .error (.apiErr e))
    | .ok _ =>
      match o.diskDelete d.BootDiskID with
      | .error e =>
        ([ApiCall.sshKeyDelete d.SSHPublicKeyID, ApiCall.instanceDelete d.InstanceID,
            ApiCall.diskDelete d.BootDiskID],
          .error (.apiErr e))
      | .ok _ =>
        let r := deleteDisks o d.AdditionalDiskIDs
        (ApiCall.sshKeyDelete d.SSHPublicKeyID :: ApiCall.instanceDelete d.InstanceID ::
            ApiCall.diskDelete d.BootDiskID :: r.1,
          r.2)

/-- The oracle's response to one traced call. -/
def applyCall (o : ClientOracle) : ApiCall → Except ApiError Unit
  | .instanceStop id => o.instanceStop id
  | .sshKeyDelete id => o.sshKeyDelete id
  | .instanceDelete id => o.instanceDelete id
  | .diskDelete id => o.diskDelete id

/-- Specification-side sequential runner: issue the given calls in
order; the first failure aborts the rest and is returned unchanged. -/
def runCalls (o : ClientOracle) : List ApiCall → List ApiCall × Except RemoveError Unit
  | [] => ([], .ok ())
  | c :: rest =>
    match applyCall o c with
    | .error e => ([c], .error (.apiErr e))
    | .ok _ =>
      let r := runCalls o rest
      (c :: r.1, r.2)

/-- The full deletion sequence `Remove` is meant to issue after the wait
loop: SSH key, instance, boot disk, then the additional disks in
recorded order. -/
def fullDeleteSeq (d : Driver) : List ApiCall :=
  ApiCall.sshKeyDelete d.SSHPublicKeyID :: ApiCall.instanceDelete d.InstanceID ::
    ApiCall.diskDelete d.BootDiskID :: d.AdditionalDiskIDs.map ApiCall.diskDelete

/-- Embedding of `Remove`: stop the instance, wait for it to report
`Stopped` under the deadline (`fuel` polls), then run the deletion
phase.  The trace records the stop call and the deletions actually
issued. -/
def Remove (d : Driver) (o : ClientOracle) (fuel : Nat) : List ApiCall × Except RemoveError Unit :=
  match o.instanceStop d.InstanceID with
  | .error e => ([ApiCall.instanceStop d.InstanceID], .error (.apiErr e))
  | .ok _ =>
    match waitForStop d o fuel 0 with
    | .error e => ([ApiCall.instanceStop d.InstanceID], .error e)
    | .ok _ =>
      let r := RemoveDeletions d o
      (ApiCall.instanceStop d.InstanceID :: r.1, r.2)

/-! ## Create's network-interface phase (current driver source) -/

/-- The IP stack of a returned network interface (`oxide.PrivateIpStack`
variants; Go's value and pointer cases collapse). -/
inductive IpStack where
  | v4 (ip : String)
  | v6 (ip : String)
  | dualStack (v4ip v6ip : String)
deriving DecidableEq, Repr

/-- A network interface as returned by
`InstanceNetworkInterfaceListAllPages`, restricted to the field Create
reads. -/
structure NetworkInterface where
  ipStack : IpStack
deriving DecidableEq, Repr

/-- Embedding of the network-interface phase of `Create`, entered after
a successful `InstanceCreate`: the interfaces are listed to completion
(the oracle hands over the collected list); an empty list is the error
"no valid network interfaces found"; otherwise the first entry's IP
stack is inspected and its IPv4 address recorded on the driver, an
entry without an IPv4 address being the error "no IPv4 address found on
network interface". -/
def createNetworkPhase (d : Driver) (networkInterfaces : List NetworkInterface) :
    Except String Driver :=
  match networkInterfaces with
  | [] => .error "no valid network interfaces found"
  | nic :: _ =>
    match nic.ipStack with
    | .v4 ip => .ok { d with IPAddress := ip }
    | .dualStack v4ip _ => .ok { d with IPAddress := v4ip }
    | .v6 _ => .error "no IPv4 address found on network interface"

/-! ## Concrete fixtures

Concrete flag sources and remote-client oracles used to evaluate the
embedded operations at specific inputs, mirroring the fakes of the
driver's own test suite. -/

/-- Flag source with the four required flags set, like the test suite's
`defaultMockDriverOptions`; every other lookup yields the zero value. -/
def mockOptions : DriverOptions where
  str := fun f =>
    if f = flagHost then "host"
    else if f = flagToken then "token"
    else if f = flagProject then "project"
    else if f = flagBootDiskImageID then "image"
    else ""
  int := fun _ => 0
  strSlice := fun _ => []
  bool := fun _ => false

/-- Flag source with nothing set, like the test suite's empty
`FakeFlagger`. -/
def optsAllEmpty : DriverOptions where
  str := fun _ => ""
  int := fun _ => 0
  strSlice := fun _ => []
  bool := fun _ => false

/-- Flag source with the host flag missing, an unparsable memory value
and one additional-disk flag supplied. -/
def optsHostMissing : DriverOptions where
  str := fun f =>
    if f = flagToken then "token"
    else if f = flagProject then "project"
    else if f = flagBootDiskImageID then "image"
    else if f = flagMemory then "borked"
    else ""
  int := fun _ => 0
  strSlice := fun f => if f = flagAdditionalDisk then ["10GiB"] else []
  bool := fun _ => false

/-- Flag source with all required flags set and two additional-disk
flags, the second of which is malformed. -/
def optsWithDisks : DriverOptions where
  str := fun f =>
    if f = flagHost then "host"
    else if f = flagToken then "token"
    else if f = flagProject then "project"
    else if f = flagBootDiskImageID then "image"
    else ""
  int := fun _ => 0
  strSlice := fun f => if f = flagAdditionalDisk then ["10GiB", "1,2,3"] else []
  bool := fun _ => false

/-- A driver with the runtime identifiers `Remove` needs recorded. -/
def removableDriver : Driver :=
  { newDriver "bob" "path" with
      InstanceID := "inst-1"
      BootDiskID := "bd-1"
      SSHPublicKeyID := "key-1"
      AdditionalDiskIDs := ["ad-1", "ad-2"] }

/-- Oracle whose instance reports `stopped` at once and whose deletions
all succeed. -/
def oracleAllOk : ClientOracle where
  instanceStop := fun _ => .ok ()
  instanceView := fun _ _ => .ok "stopped"
  sshKeyDelete := fun _ => .ok ()
  instanceDelete := fun _ => .ok ()
  diskDelete := fun _ => .ok ()

/-- Oracle whose instance reports `stopping` twice and then `stopped`,
with all deletions succeeding. -/
def oracleStopsAtTwo : ClientOracle :=
  { oracleAllOk with
      instanceView := fun k _ => if k < 2 then .ok "stopping" else .ok "stopped" }

/-- Oracle whose instance reports `stopping` forever. -/
def oracleAlwaysStopping : ClientOracle :=
  { oracleAllOk with instanceView := fun _ _ => .ok "stopping" }

/-- Oracle whose state poll fails outright. -/
def oracleViewFails : ClientOracle :=
  { oracleAllOk with instanceView := fun _ _ => .error "view boom" }

/-- Oracle whose instance is already stopped but whose boot-disk
deletion fails. -/
def oracleBootDiskFails : ClientOracle :=
  { oracleAllOk with
      diskDelete := fun id => if id = "bd-1" then .error "disk boom" else .ok () }


/-! ## Theorems -/


theorem splitSep_ne_nil (sep : Char) (l : List Char) : splitSep sep l ≠ [] := by
  induction l with
  | nil => simp [splitSep]
  | cons c rest ih =>
    by_cases h : c = sep
    · simp [splitSep, h]
    · simp only [splitSep, if_neg h]
      cases hs : splitSep sep rest with
      | nil => simp
      | cons a t => simp

theorem splitSep_length (sep : Char) (l : List Char) :
    (splitSep sep l).length = l.count sep + 1 := by
  induction l with
  | nil => simp [splitSep]
  | cons c rest ih =>
    by_cases h : c = sep
    · simp only [splitSep, if_pos h, List.length_cons, ih, List.count_cons]
      simp [h]
    · cases hs : splitSep sep rest with
      | nil => exact absurd hs (splitSep_ne_nil sep rest)
      | cons a t =>
        rw [hs] at ih
        simp only [splitSep, if_neg h, hs, List.length_cons, List.count_cons]
        simp only [List.length_cons] at ih
        simp [h, ih]

theorem splitSep_of_count_zero (sep : Char) (l : List Char) (h : l.count sep = 0) :
    splitSep sep l = [l] := by
  induction l with
  | nil => simp [splitSep]
  | cons c rest ih =>
    simp only [List.count_cons] at h
    by_cases hc : c = sep
    · simp [hc] at h
    · have hr : rest.count sep = 0 := by
        by_contra hn
        simp [hc] at h
        omega
      simp [splitSep, hc, ih hr]

theorem splitSep_of_count_one (sep : Char) (l : List Char) (h : l.count sep = 1) :
    ∃ a b, splitSep sep l = [a, b] := by
  have hlen := splitSep_length sep l
  rw [h] at hlen
  cases e : splitSep sep l with
  | nil => exact absurd e (splitSep_ne_nil sep l)
  | cons a t =>
    cases t with
    | nil => rw [e] at hlen; simp at hlen
    | cons b t2 =>
      cases t2 with
      | nil => exact ⟨a, b, rfl⟩
      | cons x t3 => rw [e] at hlen; simp at hlen



/-- C1: the state mapper is a pure total function realizing the
section 4.4 table: creating, starting, rebooting and repairing map to
Starting; running and migrating map to Running; stopping to Stopping;
stopped to Stopped; failed to Error; destroyed to NotFound; and every
unrecognized remote value maps to the designated unknown value
`state.None` instead of erroring. -/
theorem toRancherMachineState_table :
    toRancherMachineState InstanceStateCreating = State.Starting ∧
    toRancherMachineState InstanceStateStarting = State.Starting ∧
    toRancherMachineState InstanceStateRebooting = State.Starting ∧
    toRancherMachineState InstanceStateRepairing = State.Starting ∧
    toRancherMachineState InstanceStateRunning = State.Running ∧
    toRancherMachineState InstanceStateMigrating = State.Running ∧
    toRancherMachineState InstanceStateStopping = State.Stopping ∧
    toRancherMachineState InstanceStateStopped = State.Stopped ∧
    toRancherMachineState InstanceStateFailed = State.Error ∧
    toRancherMachineState InstanceStateDestroyed = State.NotFound ∧
    ∀ s : String,
      s ∉ [InstanceStateCreating, InstanceStateStarting, InstanceStateRebooting,
        InstanceStateRepairing, InstanceStateRunning, InstanceStateMigrating,
        InstanceStateStopping, InstanceStateStopped, InstanceStateFailed,
        InstanceStateDestroyed] →
      toRancherMachineState s = State.None := by
  refine ⟨by decide, by decide, by decide, by decide, by decide, by decide, by decide,
    by decide, by decide, by decide, ?_⟩
  intro s hs
  simp only [List.mem_cons, List.not_mem_nil, or_false, not_or] at hs
  obtain ⟨h1, h2, h3, h4, h5, h6, h7, h8, h9, h10⟩ := hs
  simp [toRancherMachineState, h1, h2, h3, h4, h5, h6, h7, h8, h9, h10]

/-- Witness for C1 at the unrecognized remote value "unknown". -/
theorem toRancherMachineState_table_witness :
    toRancherMachineState "unknown" = State.None :=
  toRancherMachineState_table.2.2.2.2.2.2.2.2.2.2 "unknown" (by decide)



/-- C5 counterexample: the claim says any size above one pebibyte is
rejected, but `ParseAdditionalDisk` delegates to `humanize.ParseBytes`
with no upper bound, so "2PiB" — strictly above one pebibyte — is
accepted. -/
theorem parseAdditionalDisk_pebibyte_counterexample :
    ParseAdditionalDisk "2PiB".toList =
      .ok { Size := 2251799813685248, Label := "additional".toList } ∧
    PiByte < 2251799813685248 :=
  ⟨by decide, by decide⟩

/-- C5 (amended): splitting on commas, zero commas parse the whole
string as the size with default label "additional"; one comma parses
the left part as the size and the right as the label, an empty label
after a trailing comma falling back to the default; more than one
comma, the empty string, or an unparsable size produce an error.  (No
pebibyte bound is enforced.) -/
theorem parseAdditionalDisk_format (s : List Char) :
    (s.count ',' = 0 →
      (∀ n, ParseBytes s = .ok n →
        ParseAdditionalDisk s = .ok { Size := n, Label := "additional".toList }) ∧
      (∀ e, ParseBytes s = .error e → ParseAdditionalDisk s = .error (.sizeErr e))) ∧
    (s.count ',' = 1 →
      ∀ a b, splitSep ',' s = [a, b] →
        (b ≠ [] → ∀ n, ParseBytes a = .ok n →
          ParseAdditionalDisk s = .ok { Size := n, Label := b }) ∧
        (b = [] → ∀ n, ParseBytes a = .ok n →
          ParseAdditionalDisk s = .ok { Size := n, Label := "additional".toList }) ∧
        (∀ e, ParseBytes a = .error e → ParseAdditionalDisk s = .error (.sizeErr e))) ∧
    (2 ≤ s.count ',' → ParseAdditionalDisk s = .error (.invalidFormat s)) ∧
    (s = [] → ParseAdditionalDisk s = .error (.sizeErr .badNumber)) := by
  refine ⟨?_, ?_, ?_, ?_⟩
  · intro h0
    have hs := splitSep_of_count_zero ',' s h0
    constructor
    · intro n hok
      simp [ParseAdditionalDisk, hs, hok]
    · intro e herr
      simp [ParseAdditionalDisk, hs, herr]
  · intro h1 a b hsplit
    refine ⟨?_, ?_, ?_⟩
    · intro hb n hok
      simp [ParseAdditionalDisk, hsplit, hb, hok]
    · intro hb n hok
      subst hb
      simp [ParseAdditionalDisk, hsplit, hok]
    · intro e herr
      simp [ParseAdditionalDisk, hsplit, herr]
  · intro h2
    have hlen := splitSep_length ',' s
    cases e1 : splitSep ',' s with
    | nil => exact absurd e1 (splitSep_ne_nil ',' s)
    | cons x t =>
      cases t with
      | nil =>
        rw [e1] at hlen
        simp at hlen
        omega
      | cons y t2 =>
        cases t2 with
        | nil =>
          rw [e1] at hlen
          simp at hlen
          omega
        | cons z t3 =>
          simp [ParseAdditionalDisk, e1]
  · intro h
    subst h
    decide

/-- Witness for C5 at the trailing-comma input "10GiB,". -/
theorem parseAdditionalDisk_format_witness :
    ParseAdditionalDisk "10GiB,".toList =
      .ok { Size := 10737418240, Label := "additional".toList } :=
  (((parseAdditionalDisk_format "10GiB,".toList).2.1 (by decide) "10GiB".toList []
    (by decide)).2.1) rfl 10737418240 (by decide)



/-- C6: concrete behavior of `HumanizeSize`.  The exact byte counts of
the documented examples hold, the test-suite boundary 2^50 + 1 is
rejected as too large and a malformed string fails with the distinct
syntax error; but the claimed guard "any parsed size strictly greater
than 2^50 fails" is broken by the code's `uint64`-to-`int` conversion:
"9EiB" parses to 9·2^60 > 2^50, wraps to a negative `int`, slips past
the `> PiByte` check, and is accepted. -/
theorem humanizeSize_eval :
    HumanizeSize "10GiB".toList = .ok 10737418240 ∧
    HumanizeSize "1PB".toList = .ok 1000000000000000 ∧
    HumanizeSize "1".toList = .ok 1 ∧
    HumanizeSize "1125899906842625".toList = .error .sizeTooLarge ∧
    HumanizeSize "borked".toList = .error (.parseErr .badNumber) ∧
    ParseBytes "9EiB".toList = .ok 10376293541461622784 ∧
    PiByte < 10376293541461622784 ∧
    HumanizeSize "9EiB".toList = .ok (-8070450532247928832) :=
  ⟨by decide, by decide, by decide, by decide, by decide, by decide, by decide, by decide⟩



/-- C8 (spec-modelled, the implementation is absent from the source
snapshot): `ParseExternalIP` succeeds exactly on inputs that split into
two comma-separated parts whose first part is literally "ephemeral" or
"floating" and whose second part is non-empty. -/
theorem parseExternalIP_success_iff (s : List Char) :
    (∃ ip, ParseExternalIP s = .ok ip) ↔
      ∃ k n, splitSep ',' s = [k, n] ∧
        (k = "ephemeral".toList ∨ k = "floating".toList) ∧ n ≠ [] := by
  constructor
  · rintro ⟨ip, hip⟩
    cases e1 : splitSep ',' s with
    | nil => exact absurd e1 (splitSep_ne_nil ',' s)
    | cons x t =>
      cases t with
      | nil => simp [ParseExternalIP, e1] at hip
      | cons y t2 =>
        cases t2 with
        | nil =>
          simp only [ParseExternalIP, e1] at hip
          split at hip
          · split at hip
            · exact ⟨x, y, rfl, by assumption, by assumption⟩
            · cases hip
          · cases hip
        | cons z t3 => simp [ParseExternalIP, e1] at hip
  · rintro ⟨k, n, hsplit, hk, hn⟩
    refine ⟨{ kind := k, nameOrId := n }, ?_⟩
    simp only [ParseExternalIP, hsplit]
    rcases hk with hk | hk <;> simp [hk, hn]

/-- C9: `Kill` is extensionally equal to `Stop` — the source of `Kill`
is literally `return d.Stop()`, so both issue the same remote stop call
and return the same result. -/
theorem kill_eq_stop (d : Driver) (o : ClientOracle) : Kill d o = Stop d o :=
  rfl



/-- C7 counterexample: the claim quotes the empty-list error as "no
valid network interface found", but the source says "no valid network
interfaces found" (plural); and a non-empty interface list does not
always get its first address recorded — a first interface carrying only
an IPv6 stack is an error instead. -/
theorem createNetworkPhase_counterexample :
    createNetworkPhase (newDriver "bob" "path") [] =
      .error "no valid network interfaces found" ∧
    "no valid network interfaces found" ≠ "no valid network interface found" ∧
    createNetworkPhase (newDriver "bob" "path") [{ ipStack := .v6 "fd00::1" }] =
      .error "no IPv4 address found on network interface" :=
  ⟨rfl, by decide, rfl⟩

/-- C7 (amended): after a successful instance-creation call, Create
lists the interfaces to completion; an empty list fails with "no valid
network interfaces found"; otherwise the first entry's IPv4 address
(from an IPv4 or dual-stack IP configuration) is recorded as the
reachable address, and a first entry with no IPv4 address fails with
"no IPv4 address found on network interface". -/
theorem createNetworkPhase_spec (d : Driver) (nics : List NetworkInterface) :
    (nics = [] → createNetworkPhase d nics = .error "no valid network interfaces found") ∧
    (∀ ip rest, nics = { ipStack := IpStack.v4 ip } :: rest →
      createNetworkPhase d nics = .ok { d with IPAddress := ip }) ∧
    (∀ ip4 ip6 rest, nics = { ipStack := IpStack.dualStack ip4 ip6 } :: rest →
      createNetworkPhase d nics = .ok { d with IPAddress := ip4 }) ∧
    (∀ ip6 rest, nics = { ipStack := IpStack.v6 ip6 } :: rest →
      createNetworkPhase d nics = .error "no IPv4 address found on network interface") := by
  refine ⟨?_, ?_, ?_, ?_⟩
  · intro h; subst h; rfl
  · intro ip rest h; subst h; rfl
  · intro ip4 ip6 rest h; subst h; rfl
  · intro ip6 rest h; subst h; rfl

/-- Witness for C7: one interface with IPv4 address "10.0.0.5" results
in the recorded address "10.0.0.5" and no error. -/
theorem createNetworkPhase_spec_witness :
    createNetworkPhase (newDriver "bob" "path") [{ ipStack := IpStack.v4 "10.0.0.5" }] =
      .ok { newDriver "bob" "path" with IPAddress := "10.0.0.5" } :=
  (createNetworkPhase_spec (newDriver "bob" "path")
    [{ ipStack := IpStack.v4 "10.0.0.5" }]).2.1 "10.0.0.5" [] rfl



theorem requiredFlagErrors_eq_nil_iff (h t p i : String) :
    requiredFlagErrors h t p i = [] ↔ (h ≠ "" ∧ t ≠ "" ∧ p ≠ "" ∧ i ≠ "") := by
  unfold requiredFlagErrors
  by_cases hh : h = "" <;> by_cases ht : t = "" <;> by_cases hp : p = "" <;>
    by_cases hi : i = "" <;> simp [hh, ht, hp, hi]

theorem requiredFlagErrors_no_parse (h t p i : String) (f : String) :
    FlagError.parse f ∉ requiredFlagErrors h t p i := by
  unfold requiredFlagErrors
  by_cases hh : h = "" <;> by_cases ht : t = "" <;> by_cases hp : p = "" <;>
    by_cases hi : i = "" <;> simp [hh, ht, hp, hi]

theorem parseDisksLoop_errs (flags : List String) :
    ∀ x ∈ (parseDisksLoop flags).2, x = FlagError.parse flagAdditionalDisk := by
  induction flags with
  | nil => simp [parseDisksLoop]
  | cons s rest ih =>
    simp only [parseDisksLoop]
    cases hp : ParseAdditionalDisk s.toList with
    | ok a => simpa using ih
    | error e =>
      intro x hx
      simp only [List.mem_cons] at hx
      rcases hx with hx | hx
      · exact hx
      · exact ih x hx

theorem parseDisksLoop_parse_mem (flags : List String) :
    FlagError.parse flagAdditionalDisk ∈ (parseDisksLoop flags).2 ↔
      ∃ s ∈ flags, ∃ e, ParseAdditionalDisk s.toList = .error e := by
  induction flags with
  | nil => simp [parseDisksLoop]
  | cons s rest ih =>
    simp only [parseDisksLoop]
    cases hp : ParseAdditionalDisk s.toList with
    | ok a =>
      simp only [List.mem_cons]
      constructor
      · intro hm
        obtain ⟨x, hx, e, he⟩ := ih.1 hm
        exact ⟨x, Or.inr hx, e, he⟩
      · rintro ⟨x, hx | hx, e, he⟩
        · rw [hx] at he; rw [he] at hp; cases hp
        · exact ih.2 ⟨x, hx, e, he⟩
    | error e =>
      constructor
      · intro _
        exact ⟨s, List.mem_cons_self s rest, e, hp⟩
      · intro _
        exact List.mem_cons_self _ _

theorem parseDisksLoop_disks (flags : List String) :
    (parseDisksLoop flags).1 = flags.map (fun s =>
      match ParseAdditionalDisk s.toList with
      | .ok a => a
      | .error _ => { Size := 0, Label := [] }) := by
  induction flags with
  | nil => simp [parseDisksLoop]
  | cons s rest ih =>
    simp only [parseDisksLoop, List.map_cons]
    cases hp : ParseAdditionalDisk s.toList with
    | ok a => simp [hp, ih]
    | error e => simp [hp, ih]



theorem parse_not_mem_disks (flags : List String) (f : String)
    (hf : f ≠ flagAdditionalDisk) :
    FlagError.parse f ∉ (parseDisksLoop flags).2 := by
  intro hm
  have h := parseDisksLoop_errs flags _ hm
  exact hf (FlagError.parse.inj h)

theorem required_not_mem_disks (flags : List String) (f : String) :
    FlagError.required f ∉ (parseDisksLoop flags).2 := by
  intro hm
  have h := parseDisksLoop_errs flags _ hm
  cases h

/-- C2 (amended): `SetConfigFromFlags` evaluates all four required
fields without short-circuiting among them and joins their errors; if
any required field is missing it returns that aggregated required-field
error at once, without evaluating the parseable fields (so no parse
error is ever joined with a required-field error); only when all four
required fields are present does it evaluate all parseable fields —
memory, boot-disk size, and every additional-disk entry — joining every
parse error into the single returned error.  With all four required
fields empty the error holds one distinct identifiable entry per
field. -/
theorem setConfigFromFlags_error_aggregation (d : Driver) (opts : DriverOptions) :
    ((opts.str flagHost = "" ∧ opts.str flagToken = "" ∧ opts.str flagProject = "" ∧
        opts.str flagBootDiskImageID = "") →
      (SetConfigFromFlags d opts).2 =
        [FlagError.required flagHost, FlagError.required flagToken,
          FlagError.required flagProject, FlagError.required flagBootDiskImageID]) ∧
    ((opts.str flagHost = "" ∨ opts.str flagToken = "" ∨ opts.str flagProject = "" ∨
        opts.str flagBootDiskImageID = "") →
      (SetConfigFromFlags d opts).2 =
        requiredFlagErrors (opts.str flagHost) (opts.str flagToken)
          (opts.str flagProject) (opts.str flagBootDiskImageID) ∧
      ∀ f, FlagError.parse f ∉ (SetConfigFromFlags d opts).2) ∧
    ((opts.str flagHost ≠ "" ∧ opts.str flagToken ≠ "" ∧ opts.str flagProject ≠ "" ∧
        opts.str flagBootDiskImageID ≠ "") →
      (∀ f, FlagError.required f ∉ (SetConfigFromFlags d opts).2) ∧
      (FlagError.parse flagMemory ∈ (SetConfigFromFlags d opts).2 ↔
        ∃ e, ParseBytes (effMemoryStr opts).toList = .error e) ∧
      (FlagError.parse flagBootDiskSize ∈ (SetConfigFromFlags d opts).2 ↔
        ∃ e, ParseBytes (effBootDiskSizeStr opts).toList = .error e) ∧
      (FlagError.parse flagAdditionalDisk ∈ (SetConfigFromFlags d opts).2 ↔
        ∃ s ∈ opts.strSlice flagAdditionalDisk,
          ∃ e, ParseAdditionalDisk s.toList = .error e)) := by
  refine ⟨?_, ?_, ?_⟩
  · rintro ⟨hH, hT, hP, hI⟩
    simp [SetConfigFromFlags, requiredFlagErrors, hH, hT, hP, hI]
  · intro hmiss
    have hne : requiredFlagErrors (opts.str flagHost) (opts.str flagToken)
        (opts.str flagProject) (opts.str flagBootDiskImageID) ≠ [] := by
      intro hnil
      have hall := (requiredFlagErrors_eq_nil_iff _ _ _ _).1 hnil
      rcases hmiss with h | h | h | h
      · exact hall.1 h
      · exact hall.2.1 h
      · exact hall.2.2.1 h
      · exact hall.2.2.2 h
    have heq : (SetConfigFromFlags d opts).2 =
        requiredFlagErrors (opts.str flagHost) (opts.str flagToken)
          (opts.str flagProject) (opts.str flagBootDiskImageID) := by
      simp [SetConfigFromFlags, hne]
    refine ⟨heq, ?_⟩
    intro f hf
    rw [heq] at hf
    exact requiredFlagErrors_no_parse _ _ _ _ f hf
  · rintro ⟨hH, hT, hP, hI⟩
    have hnil : requiredFlagErrors (opts.str flagHost) (opts.str flagToken)
        (opts.str flagProject) (opts.str flagBootDiskImageID) = [] :=
      (requiredFlagErrors_eq_nil_iff _ _ _ _).2 ⟨hH, hT, hP, hI⟩
    have hMB : flagMemory ≠ flagBootDiskSize := by decide
    have hMA : flagMemory ≠ flagAdditionalDisk := by decide
    have hBM : flagBootDiskSize ≠ flagMemory := by decide
    have hBA : flagBootDiskSize ≠ flagAdditionalDisk := by decide
    have hAM : flagAdditionalDisk ≠ flagMemory := by decide
    have hAB : flagAdditionalDisk ≠ flagBootDiskSize := by decide
    cases hmm : ParseBytes (effMemoryStr opts).toList with
    | ok n =>
      cases hbb : ParseBytes (effBootDiskSizeStr opts).toList with
      | ok n2 =>
        have heq : (SetConfigFromFlags d opts).2 =
            (parseDisksLoop (opts.strSlice flagAdditionalDisk)).2 := by
          have hmm2 : ParseBytes (effMemoryStr opts).data = ParseBytes (effMemoryStr opts).toList := rfl
          have hbb2 : ParseBytes (effBootDiskSizeStr opts).data = ParseBytes (effBootDiskSizeStr opts).toList := rfl
          simp only [SetConfigFromFlags, hnil]
          simp only [hmm2, hbb2, hmm, hbb]
          simp
        refine ⟨?_, ?_, ?_, ?_⟩
        · intro f hf
          rw [heq] at hf
          exact required_not_mem_disks _ f hf
        · rw [heq]
          constructor
          · intro hf
            exact absurd hf (parse_not_mem_disks _ _ hMA)
          · rintro ⟨e, he⟩
            cases he
        · rw [heq]
          constructor
          · intro hf
            exact absurd hf (parse_not_mem_disks _ _ hBA)
          · rintro ⟨e, he⟩
            cases he
        · rw [heq]
          exact parseDisksLoop_parse_mem _
      | error e2 =>
        have heq : (SetConfigFromFlags d opts).2 =
            FlagError.parse flagBootDiskSize ::
              (parseDisksLoop (opts.strSlice flagAdditionalDisk)).2 := by
          have hmm2 : ParseBytes (effMemoryStr opts).data = ParseBytes (effMemoryStr opts).toList := rfl
          have hbb2 : ParseBytes (effBootDiskSizeStr opts).data = ParseBytes (effBootDiskSizeStr opts).toList := rfl
          simp only [SetConfigFromFlags, hnil]
          simp only [hmm2, hbb2, hmm, hbb]
          simp
        refine ⟨?_, ?_, ?_, ?_⟩
        · intro f hf
          rw [heq] at hf
          simp only [List.mem_cons] at hf
          rcases hf with hf | hf
          · cases hf
          · exact required_not_mem_disks _ f hf
        · rw [heq]
          constructor
          · intro hf
            simp only [List.mem_cons] at hf
            rcases hf with hf | hf
            · exact absurd (FlagError.parse.inj hf) hMB
            · exact absurd hf (parse_not_mem_disks _ _ hMA)
          · rintro ⟨e, he⟩
            cases he
        · rw [heq]
          refine ⟨fun _ => ⟨e2, rfl⟩, fun _ => List.mem_cons_self _ _⟩
        · rw [heq]
          simp only [List.mem_cons]
          constructor
          · intro hf
            rcases hf with hf | hf
            · exact absurd (FlagError.parse.inj hf) hAB
            · exact (parseDisksLoop_parse_mem _).1 hf
          · intro hx
            exact Or.inr ((parseDisksLoop_parse_mem _).2 hx)
    | error e1 =>
      cases hbb : ParseBytes (effBootDiskSizeStr opts).toList with
      | ok n2 =>
        have heq : (SetConfigFromFlags d opts).2 =
            FlagError.parse flagMemory ::
              (parseDisksLoop (opts.strSlice flagAdditionalDisk)).2 := by
          have hmm2 : ParseBytes (effMemoryStr opts).data = ParseBytes (effMemoryStr opts).toList := rfl
          have hbb2 : ParseBytes (effBootDiskSizeStr opts).data = ParseBytes (effBootDiskSizeStr opts).toList := rfl
          simp only [SetConfigFromFlags, hnil]
          simp only [hmm2, hbb2, hmm, hbb]
          simp
        refine ⟨?_, ?_, ?_, ?_⟩
        · intro f hf
          rw [heq] at hf
          simp only [List.mem_cons] at hf
          rcases hf with hf | hf
          · cases hf
          · exact required_not_mem_disks _ f hf
        · rw [heq]
          refine ⟨fun _ => ⟨e1, rfl⟩, fun _ => List.mem_cons_self _ _⟩
        · rw [heq]
          constructor
          · intro hf
            simp only [List.mem_cons] at hf
            rcases hf with hf | hf
            · exact absurd (FlagError.parse.inj hf) hBM
            · exact absurd hf (parse_not_mem_disks _ _ hBA)
          · rintro ⟨e, he⟩
            cases he
        · rw [heq]
          simp only [List.mem_cons]
          constructor
          · intro hf
            rcases hf with hf | hf
            · exact absurd (FlagError.parse.inj hf) hAM
            · exact (parseDisksLoop_parse_mem _).1 hf
          · intro hx
            exact Or.inr ((parseDisksLoop_parse_mem _).2 hx)
      | error e2 =>
        have heq : (SetConfigFromFlags d opts).2 =
            FlagError.parse flagMemory :: FlagError.parse flagBootDiskSize ::
              (parseDisksLoop (opts.strSlice flagAdditionalDisk)).2 := by
          have hmm2 : ParseBytes (effMemoryStr opts).data = ParseBytes (effMemoryStr opts).toList := rfl
          have hbb2 : ParseBytes (effBootDiskSizeStr opts).data = ParseBytes (effBootDiskSizeStr opts).toList := rfl
          simp only [SetConfigFromFlags, hnil]
          simp only [hmm2, hbb2, hmm, hbb]
          simp
        refine ⟨?_, ?_, ?_, ?_⟩
        · intro f hf
          rw [heq] at hf
          simp only [List.mem_cons] at hf
          rcases hf with hf | hf | hf
          · cases hf
          · cases hf
          · exact required_not_mem_disks _ f hf
        · rw [heq]
          refine ⟨fun _ => ⟨e1, rfl⟩, fun _ => List.mem_cons_self _ _⟩
        · rw [heq]
          refine ⟨fun _ => ⟨e2, rfl⟩,
            fun _ => List.mem_cons_of_mem _ (List.mem_cons_self _ _)⟩
        · rw [heq]
          simp only [List.mem_cons]
          constructor
          · intro hf
            rcases hf with hf | hf | hf
            · exact absurd (FlagError.parse.inj hf) hAM
            · exact absurd (FlagError.parse.inj hf) hAB
            · exact (parseDisksLoop_parse_mem _).1 hf
          · intro hx
            right
            right
            exact (parseDisksLoop_parse_mem _).2 hx


/-- C2 counterexample: with the host flag missing and an unparsable
memory flag, the claim requires the returned aggregated error to join
the required-host error with the memory parse error, but
`SetConfigFromFlags` returns only the required-flag error — the parse
phase is never evaluated. -/
theorem setConfigFromFlags_shortCircuit_counterexample :
    (SetConfigFromFlags (newDriver "bob" "path") optsHostMissing).2 =
      [FlagError.required flagHost] ∧
    ParseBytes (effMemoryStr optsHostMissing).toList = .error .badNumber :=
  ⟨by decide, by decide⟩

/-- Witness for C2 (amended) at the all-fields-empty flag source. -/
theorem setConfigFromFlags_error_aggregation_witness :
    (SetConfigFromFlags (newDriver "bob" "path") optsAllEmpty).2 =
      [FlagError.required flagHost, FlagError.required flagToken,
        FlagError.required flagProject, FlagError.required flagBootDiskImageID] :=
  (setConfigFromFlags_error_aggregation (newDriver "bob" "path") optsAllEmpty).1
    ⟨rfl, rfl, rfl, rfl⟩

/-- C10 counterexample: with the host flag missing and one
additional-disk flag supplied, the claim requires `AdditionalDisks` to
hold one element after `SetConfigFromFlags` returns, but the
required-flag early return leaves the list untouched (empty). -/
theorem additionalDisks_earlyReturn_counterexample :
    (SetConfigFromFlags (newDriver "bob" "path") optsHostMissing).1.AdditionalDisks = [] ∧
    (optsHostMissing.strSlice flagAdditionalDisk).length = 1 :=
  ⟨by decide, by decide⟩

/-- C10 (amended): when all four required fields are present, after
`SetConfigFromFlags` returns (with or without error) `AdditionalDisks`
has exactly one element per additional-disk flag string, in input
order, a failed parse contributing the zero-value disk (size 0, empty
label) instead of being skipped. -/
theorem setConfig_additionalDisks_per_flag (d : Driver) (opts : DriverOptions)
    (hH : opts.str flagHost ≠ "") (hT : opts.str flagToken ≠ "")
    (hP : opts.str flagProject ≠ "") (hI : opts.str flagBootDiskImageID ≠ "") :
    (SetConfigFromFlags d opts).1.AdditionalDisks =
      (opts.strSlice flagAdditionalDisk).map (fun s =>
        match ParseAdditionalDisk s.toList with
        | .ok a => a
        | .error _ => { Size := 0, Label := [] }) ∧
    (SetConfigFromFlags d opts).1.AdditionalDisks.length =
      (opts.strSlice flagAdditionalDisk).length := by
  have hnil : requiredFlagErrors (opts.str flagHost) (opts.str flagToken)
      (opts.str flagProject) (opts.str flagBootDiskImageID) = [] :=
    (requiredFlagErrors_eq_nil_iff _ _ _ _).2 ⟨hH, hT, hP, hI⟩
  have hdisks : (SetConfigFromFlags d opts).1.AdditionalDisks =
      (parseDisksLoop (opts.strSlice flagAdditionalDisk)).1 := by
    simp only [SetConfigFromFlags, hnil]
    simp
  rw [hdisks, parseDisksLoop_disks]
  exact ⟨rfl, by simp⟩

/-- Witness for C10 (amended) at a flag source with one well-formed and
one malformed additional-disk entry. -/
theorem setConfig_additionalDisks_per_flag_witness :
    (SetConfigFromFlags (newDriver "bob" "path") optsWithDisks).1.AdditionalDisks =
      [{ Size := 10737418240, Label := "additional".toList },
        { Size := 0, Label := [] }] := by
  rw [(setConfig_additionalDisks_per_flag (newDriver "bob" "path") optsWithDisks
    (by decide) (by decide) (by decide) (by decide)).1]
  decide



theorem waitForStop_reaches (d : Driver) (o : ClientOracle) :
    ∀ N fuel k, (∀ j, j < N → o.instanceView (k + j) d.InstanceID = .ok "stopping") →
      o.instanceView (k + N) d.InstanceID = .ok "stopped" → N < fuel →
      waitForStop d o fuel k = .ok () := by
  intro N
  induction N with
  | zero =>
    intro fuel k _ hstopped hlt
    cases fuel with
    | zero => exact absurd hlt (by omega)
    | succ f =>
      simp only [waitForStop, GetState]
      rw [show k + 0 = k from rfl] at hstopped
      rw [hstopped]
      simp [toRancherMachineState, InstanceStateStopped, InstanceStateCreating,
        InstanceStateStarting, InstanceStateRebooting, InstanceStateRepairing,
        InstanceStateRunning, InstanceStateMigrating, InstanceStateStopping]
  | succ n ih =>
    intro fuel k hloop hstopped hlt
    cases fuel with
    | zero => exact absurd hlt (by omega)
    | succ f =>
      have h0 : o.instanceView k d.InstanceID = .ok "stopping" := by
        have := hloop 0 (by omega)
        simpa using this
      simp only [waitForStop, GetState, h0]
      have hmap : toRancherMachineState "stopping" = State.Stopping := by decide
      rw [hmap]
      rw [if_neg (show ¬State.Stopping = State.Stopped by decide)]
      have hloop2 : ∀ j, j < n → o.instanceView (k + 1 + j) d.InstanceID = .ok "stopping" := by
        intro j hj
        have := hloop (j + 1) (by omega)
        rw [show k + (j + 1) = k + 1 + j by omega] at this
        exact this
      have hstopped2 : o.instanceView (k + 1 + n) d.InstanceID = .ok "stopped" := by
        rw [show k + 1 + n = k + (n + 1) by omega]
        exact hstopped
      exact ih f (k + 1) hloop2 hstopped2 (by omega)

theorem waitForStop_timeout (d : Driver) (o : ClientOracle)
    (halways : ∀ j, o.instanceView j d.InstanceID = .ok "stopping") :
    ∀ fuel k, waitForStop d o fuel k = .error .timeout := by
  intro fuel
  induction fuel with
  | zero => intro k; rfl
  | succ f ih =>
    intro k
    simp only [waitForStop, GetState, halways k]
    have hmap : toRancherMachineState "stopping" = State.Stopping := by decide
    rw [hmap]
    rw [if_neg (show ¬State.Stopping = State.Stopped by decide)]
    exact ih (k + 1)

theorem waitForStop_fetch_error (d : Driver) (o : ClientOracle) :
    ∀ N fuel k e, (∀ j, j < N → o.instanceView (k + j) d.InstanceID = .ok "stopping") →
      o.instanceView (k + N) d.InstanceID = .error e → N < fuel →
      waitForStop d o fuel k = .error (.apiErr e) := by
  intro N
  induction N with
  | zero =>
    intro fuel k e _ herr hlt
    cases fuel with
    | zero => exact absurd hlt (by omega)
    | succ f =>
      simp only [waitForStop, GetState]
      rw [show k + 0 = k from rfl] at herr
      rw [herr]
  | succ n ih =>
    intro fuel k e hloop herr hlt
    cases fuel with
    | zero => exact absurd hlt (by omega)
    | succ f =>
      have h0 : o.instanceView k d.InstanceID = .ok "stopping" := by
        have := hloop 0 (by omega)
        simpa using this
      simp only [waitForStop, GetState, h0]
      have hmap : toRancherMachineState "stopping" = State.Stopping := by decide
      rw [hmap]
      rw [if_neg (show ¬State.Stopping = State.Stopped by decide)]
      have hloop2 : ∀ j, j < n → o.instanceView (k + 1 + j) d.InstanceID = .ok "stopping" := by
        intro j hj
        have := hloop (j + 1) (by omega)
        rw [show k + (j + 1) = k + 1 + j by omega] at this
        exact this
      have herr2 : o.instanceView (k + 1 + n) d.InstanceID = .error e := by
        rw [show k + 1 + n = k + (n + 1) by omega]
        exact herr
      exact ih f (k + 1) e hloop2 herr2 (by omega)

theorem remove_wait_fail (d : Driver) (o : ClientOracle) (fuel : Nat) (e : RemoveError)
    (hstop : o.instanceStop d.InstanceID = .ok ())
    (hwait : waitForStop d o fuel 0 = .error e) :
    Remove d o fuel = ([ApiCall.instanceStop d.InstanceID], .error e) := by
  simp [Remove, hstop, hwait]

theorem remove_wait_ok (d : Driver) (o : ClientOracle) (fuel : Nat)
    (hstop : o.instanceStop d.InstanceID = .ok ())
    (hwait : waitForStop d o fuel 0 = .ok ()) :
    Remove d o fuel =
      (ApiCall.instanceStop d.InstanceID :: (RemoveDeletions d o).1, (RemoveDeletions d o).2) := by
  simp [Remove, hstop, hwait]



theorem deleteDisks_eq_runCalls (o : ClientOracle) (ids : List String) :
    deleteDisks o ids = runCalls o (ids.map ApiCall.diskDelete) := by
  induction ids with
  | nil => rfl
  | cons id rest ih =>
    simp only [deleteDisks, List.map_cons, runCalls, applyCall]
    cases o.diskDelete id with
    | error e => rfl
    | ok u => rw [ih]

theorem removeDeletions_eq_runCalls (d : Driver) (o : ClientOracle) :
    RemoveDeletions d o = runCalls o (fullDeleteSeq d) := by
  simp only [RemoveDeletions, fullDeleteSeq, runCalls, applyCall]
  cases o.sshKeyDelete d.SSHPublicKeyID with
  | error e => rfl
  | ok u1 =>
    cases o.instanceDelete d.InstanceID with
    | error e => rfl
    | ok u2 =>
      cases o.diskDelete d.BootDiskID with
      | error e => rfl
      | ok u3 => rw [deleteDisks_eq_runCalls]

theorem runCalls_all_ok (o : ClientOracle) :
    ∀ seq : List ApiCall, (∀ c ∈ seq, applyCall o c = .ok ()) →
      runCalls o seq = (seq, .ok ()) := by
  intro seq
  induction seq with
  | nil => intro _; rfl
  | cons c rest ih =>
    intro h
    have hc := h c (List.mem_cons_self c rest)
    simp only [runCalls, hc]
    rw [ih (fun x hx => h x (List.mem_cons_of_mem c hx))]

theorem runCalls_first_fail (o : ClientOracle) :
    ∀ (pre : List ApiCall) (c : ApiCall) (rest : List ApiCall) (e : ApiError),
      (∀ x ∈ pre, applyCall o x = .ok ()) → applyCall o c = .error e →
      runCalls o (pre ++ c :: rest) = (pre ++ [c], .error (.apiErr e)) := by
  intro pre
  induction pre with
  | nil =>
    intro c rest e _ hc
    simp only [List.nil_append, runCalls, hc]
  | cons x pre2 ih =>
    intro c rest e hpre hc
    have hx := hpre x (List.mem_cons_self x pre2)
    have ih2 := ih c rest e (fun y hy => hpre y (List.mem_cons_of_mem x hy)) hc
    simp only [List.cons_append, runCalls, hx, List.append_eq, ih2]


/-- C3: `Remove`'s wait loop polls `GetState` under a deadline (the
source's two-minute wall clock is modelled as a poll budget `fuel`
because the loop has no sleep): if some poll reports `stopped` within
the budget, `Remove` exits the loop and proceeds to the deletion phase;
if every poll reports a not-yet-stopped state, `Remove` returns the
timeout error once the budget is exhausted; if a poll fails, `Remove`
returns that fetch error immediately with no deletion issued (the trace
holds only the stop call); and the timeout error is distinct from every
fetch error. -/
theorem remove_wait_loop_behavior (d : Driver) (o : ClientOracle) (fuel : Nat)
    (hstop : o.instanceStop d.InstanceID = .ok ()) :
    (∀ N, (∀ j, j < N → o.instanceView j d.InstanceID = .ok "stopping") →
      o.instanceView N d.InstanceID = .ok "stopped" → N < fuel →
      Remove d o fuel =
        (ApiCall.instanceStop d.InstanceID :: (RemoveDeletions d o).1,
          (RemoveDeletions d o).2)) ∧
    ((∀ j, o.instanceView j d.InstanceID = .ok "stopping") →
      Remove d o fuel = ([ApiCall.instanceStop d.InstanceID], .error .timeout)) ∧
    (∀ N e, (∀ j, j < N → o.instanceView j d.InstanceID = .ok "stopping") →
      o.instanceView N d.InstanceID = .error e → N < fuel →
      Remove d o fuel = ([ApiCall.instanceStop d.InstanceID], .error (.apiErr e))) ∧
    (∀ e, RemoveError.timeout ≠ RemoveError.apiErr e) := by
  refine ⟨?_, ?_, ?_, ?_⟩
  · intro N hloop hstopped hlt
    have hwait := waitForStop_reaches d o N fuel 0 (by simpa using hloop)
      (by simpa using hstopped) hlt
    exact remove_wait_ok d o fuel hstop hwait
  · intro halways
    exact remove_wait_fail d o fuel .timeout hstop (waitForStop_timeout d o halways fuel 0)
  · intro N e hloop herr hlt
    have hwait := waitForStop_fetch_error d o N fuel 0 e (by simpa using hloop)
      (by simpa using herr) hlt
    exact remove_wait_fail d o fuel (.apiErr e) hstop hwait
  · intro e h
    cases h

/-- Witness for C3: the three wait-loop scenarios at concrete oracles —
stopped after two `stopping` polls (full deletion proceeds), always
`stopping` (timeout, no deletion), and a failing poll (that error, no
deletion). -/
theorem remove_wait_loop_behavior_witness :
    Remove removableDriver oracleStopsAtTwo 5 =
      ([ApiCall.instanceStop "inst-1", ApiCall.sshKeyDelete "key-1",
        ApiCall.instanceDelete "inst-1", ApiCall.diskDelete "bd-1",
        ApiCall.diskDelete "ad-1", ApiCall.diskDelete "ad-2"], .ok ()) ∧
    Remove removableDriver oracleAlwaysStopping 5 =
      ([ApiCall.instanceStop "inst-1"], .error .timeout) ∧
    Remove removableDriver oracleViewFails 5 =
      ([ApiCall.instanceStop "inst-1"], .error (.apiErr "view boom")) := by
  refine ⟨?_, ?_, ?_⟩
  · rw [(remove_wait_loop_behavior removableDriver oracleStopsAtTwo 5 rfl).1 2
      (by decide) rfl (by decide)]
    decide
  · exact (remove_wait_loop_behavior removableDriver oracleAlwaysStopping 5 rfl).2.1
      (fun j => rfl)
  · exact (remove_wait_loop_behavior removableDriver oracleViewFails 5 rfl).2.2.1 0
      "view boom" (by decide) rfl (by decide)

/-- C4: after the wait loop succeeds, `Remove` issues deletions exactly
in the order SSH key, instance, boot disk, then each additional disk in
recorded order — its deletion phase coincides with running
`fullDeleteSeq` sequentially — and the sequential runner issues every
call when all succeed, while the first failure aborts the remaining
deletions and is returned unchanged. -/
theorem remove_deletion_sequence (d : Driver) (o : ClientOracle) :
    RemoveDeletions d o = runCalls o (fullDeleteSeq d) ∧
    (∀ fuel, o.instanceStop d.InstanceID = .ok () → waitForStop d o fuel 0 = .ok () →
      Remove d o fuel =
        (ApiCall.instanceStop d.InstanceID :: (runCalls o (fullDeleteSeq d)).1,
          (runCalls o (fullDeleteSeq d)).2)) ∧
    (∀ seq : List ApiCall, (∀ c ∈ seq, applyCall o c = .ok ()) →
      runCalls o seq = (seq, .ok ())) ∧
    (∀ (pre : List ApiCall) (c : ApiCall) (rest : List ApiCall) (e : ApiError),
      (∀ x ∈ pre, applyCall o x = .ok ()) → applyCall o c = .error e →
      runCalls o (pre ++ c :: rest) = (pre ++ [c], .error (.apiErr e))) := by
  refine ⟨removeDeletions_eq_runCalls d o, ?_, runCalls_all_ok o, runCalls_first_fail o⟩
  intro fuel hstop hwait
  rw [remove_wait_ok d o fuel hstop hwait, removeDeletions_eq_runCalls d o]

/-- Witness for C4: with the boot-disk deletion failing, `Remove`
issues the stop, the SSH-key, instance and boot-disk deletions in
order, aborts before the additional disks, and returns the failure
unchanged. -/
theorem remove_deletion_sequence_witness :
    Remove removableDriver oracleBootDiskFails 1 =
      ([ApiCall.instanceStop "inst-1", ApiCall.sshKeyDelete "key-1",
        ApiCall.instanceDelete "inst-1", ApiCall.diskDelete "bd-1"],
        .error (.apiErr "disk boom")) := by
  rw [(remove_deletion_sequence removableDriver oracleBootDiskFails).2.1 1 rfl (by decide)]
  decide

end OxideDriver
